import Mathlib

/-!
Verification of the workflow execution engine of the dataset-crawler
repository (src/app/advanced_crawler.py and src/app/core/crawler.py),
as a shallow embedding in Lean.

Python strings are modeled as lists of characters (`PyStr`), Python
exceptions as `Except Unit`, and every Playwright driver call as a field
of an explicit "world"/element record holding that call's outcome, so the
embedded control flow can be run on concrete worlds and reasoned about
for all worlds.
-/

set_option autoImplicit false

namespace Crawler

/-- A Python string: a sequence of characters. -/
abbrev PyStr := List Char

/-- Shorthand to build a `PyStr` from a Lean string literal. -/
def pys (s : String) : PyStr := s.toList

/-- A Python computation that may raise an exception (the message text is
irrelevant to the engine's control flow, so errors carry no data). -/
abbrev Exc (α : Type) := Except Unit α

/-- Python truthiness of an `Optional[str]`: `None` and `""` are falsy. -/
def pyTruthy : Option PyStr → Bool
  | none => false
  | some s => !s.isEmpty

/-- `s.strip()`: remove leading and trailing whitespace. -/
def pyStrip (s : PyStr) : PyStr :=
  ((s.dropWhile Char.isWhitespace).reverse.dropWhile Char.isWhitespace).reverse

/-- `s.lower()`: lowercase every character. -/
def pyLower (s : PyStr) : PyStr := s.map Char.toLower

/-- `s.rstrip('/')`: remove every trailing slash. -/
def pyRstripSlash (s : PyStr) : PyStr :=
  (s.reverse.dropWhile (fun c => c = '/')).reverse

/-- Split a string at the first occurrence of the pattern `pat`, returning
the parts before and after it, or `none` when `pat` does not occur. -/
def splitFirstSub (pat : PyStr) : PyStr → Option (PyStr × PyStr)
  | [] => if pat.isEmpty then some ([], []) else none
  | c :: rest =>
    if pat.isPrefixOf (c :: rest) then some ([], (c :: rest).drop pat.length)
    else (splitFirstSub pat rest).map (fun p => (c :: p.1, p.2))

/-- Python's substring test `pat in s` (an empty pattern matches). -/
def isSubstrOf (pat s : PyStr) : Bool := (splitFirstSub pat s).isSome

/-- `s.split('/')` (Python `str.split` with an explicit separator keeps
empty pieces, and an empty string yields one empty piece). -/
def pySplitSlash : PyStr → List PyStr
  | [] => [[]]
  | c :: rest =>
    let r := pySplitSlash rest
    if c = '/' then [] :: r
    else
      match r with
      | h :: t => (c :: h) :: t
      | [] => [[c]]

/-- The `(netloc, path)` parts of `urllib.parse.urlparse`, restricted to
URLs of the shape `scheme://netloc/path[?query][#fragment]` (the only
shapes the crawler compares): the fragment and query are cut off, the
netloc is what stands between `://` and the next `/`, and a URL without
`://` has an empty netloc and is all path. -/
def urlNetlocPath (url : PyStr) : PyStr × PyStr :=
  let u := (url.takeWhile (fun c => c ≠ '#')).takeWhile (fun c => c ≠ '?')
  match splitFirstSub (pys "://") u with
  | some (_, rest) => (rest.takeWhile (fun c => c ≠ '/'), rest.dropWhile (fun c => c ≠ '/'))
  | none => ([], u)

/-- Embedding of `AdvancedCrawler._is_field_for_current_page`
(src/app/advanced_crawler.py lines 747-777): decide whether a field
selection authored on `fieldPageUrl` applies while crawling `currentUrl`. -/
def isFieldForCurrentPage (fieldPageUrl currentUrl : PyStr) : Bool :=
  let fieldParsed := urlNetlocPath fieldPageUrl
  let currentParsed := urlNetlocPath currentUrl
  if fieldParsed.1 ≠ currentParsed.1 then false
  else
    let fieldPath := pyRstripSlash fieldParsed.2
    let currentPath := pyRstripSlash currentParsed.2
    if fieldPath = currentPath then true
    else if (pySplitSlash fieldPath).length > (pySplitSlash currentPath).length then false
    else fieldPath.isPrefixOf currentPath

/-- The field-scope rule exactly as the specification words it (parse both
URLs; different host false; strip trailing slashes; equal paths true;
strictly more field path segments false; otherwise whether the current
path starts with the field path), for comparison with the embedding. -/
def fieldScopeRule (fieldPageUrl currentUrl : PyStr) : Bool :=
  let fieldHost := (urlNetlocPath fieldPageUrl).1
  let currentHost := (urlNetlocPath currentUrl).1
  let fieldPath := pyRstripSlash (urlNetlocPath fieldPageUrl).2
  let currentPath := pyRstripSlash (urlNetlocPath currentUrl).2
  if fieldHost ≠ currentHost then false
  else if fieldPath = currentPath then true
  else if (pySplitSlash fieldPath).length > (pySplitSlash currentPath).length then false
  else fieldPath.isPrefixOf currentPath

/-- A located element handle. Each driver capability used by the engine
(`get_attribute`, `text_content`, `is_visible`, the computed-style
`evaluate` calls, `query_selector` below an element, `click`) is a field
holding that call's outcome, so a concrete element fixes the behavior of
every call the engine can make on it. -/
inductive Elem : Type where
  | mk (attrF : List Char → Except Unit (Option (List Char)))
       (textF : Except Unit (Option (List Char)))
       (visF : Except Unit Bool)
       (styleF : List Char → Except Unit (List Char))
       (subF : List Char → Except Unit (Option Elem))
       (clickF : Except Unit Unit)

/-- `element.get_attribute(name)`. -/
def Elem.getAttr : Elem → PyStr → Exc (Option PyStr)
  | .mk a _ _ _ _ _ => a

/-- `element.text_content()`. -/
def Elem.textContent : Elem → Exc (Option PyStr)
  | .mk _ t _ _ _ _ => t

/-- `element.is_visible()`. -/
def Elem.isVisible : Elem → Exc Bool
  | .mk _ _ v _ _ _ => v

/-- `element.evaluate("el => getComputedStyle(el).<prop>")`, keyed by the
property name. -/
def Elem.styleProp : Elem → PyStr → Exc PyStr
  | .mk _ _ _ s _ _ => s

/-- `element.query_selector(selector)` scoped under this element. -/
def Elem.subQuery : Elem → PyStr → Exc (Option Elem)
  | .mk _ _ _ _ q _ => q

/-- `element.click()`. -/
def Elem.clickElem : Elem → Exc Unit
  | .mk _ _ _ _ _ c => c

/-- Digit string to a natural number (the caller checks digitness). -/
def digitsVal (s : PyStr) : Nat :=
  s.foldl (fun n c => n * 10 + (c.toNat - '0'.toNat)) 0

/-- Python `float(s)` on the decimal literals produced by
`getComputedStyle(...).opacity` (optional sign, digits, optional
fraction), modeled exactly: the result `(num, scale)` denotes the
rational `num / 10 ^ scale`; `none` models the `ValueError` that `float`
raises on anything else. -/
def pyFloat (s : PyStr) : Option (Int × Nat) :=
  let t := pyStrip s
  let signed : Int × PyStr :=
    match t with
    | '-' :: r => (-1, r)
    | '+' :: r => (1, r)
    | _ => (1, t)
  let intPart := signed.2.takeWhile Char.isDigit
  let rest := signed.2.dropWhile Char.isDigit
  match rest with
  | [] =>
    if intPart.isEmpty then none
    else some (signed.1 * (digitsVal intPart : Int), 0)
  | '.' :: frac =>
    if frac.all Char.isDigit && (!intPart.isEmpty || !frac.isEmpty) then
      some (signed.1 * ((digitsVal intPart : Int) * (10 : Int) ^ frac.length +
        (digitsVal frac : Int)), frac.length)
    else none
  | _ => none

/-- `float(opacity) < 0.1` on the exact representation: `num / 10 ^ scale
< 1 / 10` is `10 * num < 10 ^ scale` (the bridging lemma below proves the
two readings agree). -/
def floatLtTenth (r : Int × Nat) : Bool :=
  decide (10 * r.1 < (10 : Int) ^ r.2)

/-- The class substrings that mark an element as disabled
(src/app/advanced_crawler.py line 647). -/
def disabledClassNames : List PyStr :=
  [pys "disabled", pys "btn-disabled", pys "inactive", pys "not-clickable", pys "btn-inactive"]

/-- Embedding of `AdvancedCrawler._is_element_clickable`
(src/app/advanced_crawler.py lines 627-674; `PaginatedCrawler` in
src/app/core/crawler.py lines 80-138 is character-identical): the checks
run in source order, both computed styles are fetched before either style
check, and this inner computation may raise. -/
def isElementClickableE (e : Elem) : Exc Bool :=
  match e.getAttr (pys "disabled") with
  | .error u => .error u
  | .ok isDisabled =>
    if isDisabled.isSome then .ok false
    else
      match e.getAttr (pys "aria-disabled") with
      | .error u => .error u
      | .ok ariaDisabled =>
        if ariaDisabled = some (pys "true") then .ok false
        else
          match e.getAttr (pys "class") with
          | .error u => .error u
          | .ok classAttr =>
            let className := classAttr.getD []
            if disabledClassNames.any (fun c => isSubstrOf c (pyLower className)) then .ok false
            else
              match e.isVisible with
              | .error u => .error u
              | .ok vis =>
                if !vis then .ok false
                else
                  match e.styleProp (pys "pointerEvents") with
                  | .error u => .error u
                  | .ok pointerEvents =>
                    match e.styleProp (pys "opacity") with
                    | .error u => .error u
                    | .ok opacity =>
                      if pointerEvents = pys "none" then .ok false
                      else
                        match pyFloat opacity with
                        | none => .error ()
                        | some r => if floatLtTenth r then .ok false else .ok true

/-- `_is_element_clickable` proper: the surrounding `try`/`except` turns
any raised error into `False` (fail-closed). -/
def isElementClickable (e : Elem) : Bool :=
  match isElementClickableE e with
  | .ok b => b
  | .error _ => false

/-- The clickability heuristic exactly as the specification words it:
six checks short-circuiting in order, each consulting the driver only
when reached, any driver error (including an unparsable opacity) giving
`false`, for comparison with the embedding. -/
def clickableRule (e : Elem) : Bool :=
  match e.getAttr (pys "disabled") with
  | .error _ => false
  | .ok d =>
    if d.isSome then false
    else
      match e.getAttr (pys "aria-disabled") with
      | .error _ => false
      | .ok a =>
        if a = some (pys "true") then false
        else
          match e.getAttr (pys "class") with
          | .error _ => false
          | .ok c =>
            if disabledClassNames.any (fun d => isSubstrOf d (pyLower (c.getD []))) then false
            else
              match e.isVisible with
              | .error _ => false
              | .ok vis =>
                if !vis then false
                else
                  match e.styleProp (pys "pointerEvents") with
                  | .error _ => false
                  | .ok pe =>
                    if pe = pys "none" then false
                    else
                      match e.styleProp (pys "opacity") with
                      | .error _ => false
                      | .ok op =>
                        match pyFloat op with
                        | none => false
                        | some r => !floatLtTenth r

/-- A plain element for concrete runs: attributes from a lookup function,
fixed text, visibility, pointer-events and opacity, no sub-elements, and
a click that succeeds. -/
def plainElem (attrs : PyStr → Option PyStr) (text : Option PyStr)
    (vis : Bool) (pe op : PyStr) : Elem :=
  .mk (fun a => .ok (attrs a)) (.ok text) (.ok vis)
    (fun p => .ok (if p = pys "pointerEvents" then pe else op))
    (fun _ => .ok none) (.ok ())

/-- An attribute lookup holding only a `class` attribute. -/
def classOnlyAttrs (cls : PyStr) : PyStr → Option PyStr :=
  fun a => if a = pys "class" then some cls else none

/-- Embedding of the relative-URL handling in
`_handle_new_tab_workflow_by_index` (src/app/advanced_crawler.py lines
403-409; lines 537-543 are identical): a root-relative href is glued to
the current page URL, dropping one leading slash when the page URL ends
with a slash; any other href is used unchanged. -/
def resolveHref (baseUrl href : PyStr) : PyStr :=
  if ['/'].isPrefixOf href then
    if baseUrl.getLast? = some '/' then baseUrl ++ href.drop 1
    else baseUrl ++ href
  else href

/-- Remove every trailing slash. -/
def dropTrailSlashes (s : PyStr) : PyStr := (s.reverse.dropWhile (fun c => c = '/')).reverse

/-- Remove every leading slash. -/
def dropLeadSlashes (s : PyStr) : PyStr := s.dropWhile (fun c => c = '/')

/-- Joining a base URL and an href with exactly one slash at the
junction, the reading of the claim that the resolved URL is the
concatenation with exactly one slash between the two parts. -/
def singleSlashJoin (b h : PyStr) : PyStr :=
  dropTrailSlashes b ++ '/' :: dropLeadSlashes h

/-- Drop at most one trailing slash. -/
def stripOneTrailSlash (s : PyStr) : PyStr :=
  if s.getLast? = some '/' then s.dropLast else s

/-- `ElementSelection` (src/app/models.py lines 13-28), the fields the
engine reads. `description`, `workflow_action` and
`verification_attributes` are never consulted by the execution engine and
are omitted. -/
structure ElementSelection where
  name : PyStr
  selector : PyStr
  element_type : PyStr
  extraction_type : PyStr := pys "text"
  attribute_name : Option PyStr := none
  original_content : Option PyStr := none
  page_url : Option PyStr := none

/-- `WorkflowStep` (src/app/models.py lines 31-39). `extract_fields`
is `Optional[List[str]]` in the source, but `None` and `[]` are
indistinguishable there (both falsy, both looped over zero times),
so it is a plain list here; `description` is never read. -/
structure WorkflowStep where
  step_id : PyStr
  action : PyStr
  target_selector : PyStr
  extract_fields : List PyStr := []
  wait_condition : PyStr := pys "networkidle"
  wait_selector : Option PyStr := none

/-- `CrawlerConfiguration` (src/app/models.py lines 42-50). `max_pages`
is an optional count (the engine only ever compares it to the positive
page counter, and `0` is falsy exactly like `None` in the guard that
consults it). -/
structure CrawlerConfiguration where
  name : PyStr
  base_url : PyStr
  selections : List ElementSelection
  workflows : List WorkflowStep
  pagination_config : Option ElementSelection := none
  max_pages : Option Nat := none
  delay_ms : Nat := 1000

/-- `AdvancedCrawler._find_selection_by_name` (lines 613-618): first
selection with the given name. -/
def findSelectionByName (cfg : CrawlerConfiguration) (n : PyStr) : Option ElementSelection :=
  cfg.selections.find? (fun s => s.name == n)

/-- `AdvancedCrawler._get_items_selector` (lines 620-625): first
selection with `element_type == 'items_container'`. -/
def getItemsSelector (cfg : CrawlerConfiguration) : Option ElementSelection :=
  cfg.selections.find? (fun s => s.element_type == pys "items_container")

/-- A Python dict with string keys and string-or-`None` values, as an
insertion-ordered association list (the order Python dicts preserve). -/
abbrev FieldMap := List (PyStr × Option PyStr)

/-- `d[k] = v` on a Python dict: overwrite in place if the key exists
(keys are unique, so replacing the first occurrence is overwriting),
else append. -/
def dictInsert : FieldMap → PyStr → Option PyStr → FieldMap
  | [], k, v => [(k, v)]
  | p :: rest, k, v => if p.1 == k then (k, v) :: rest else p :: dictInsert rest k v

/-- `d.update(other)` on Python dicts. -/
def dictUpdate (m other : FieldMap) : FieldMap :=
  other.foldl (fun acc p => dictInsert acc p.1 p.2) m

/-- `k in d` on a Python dict. -/
def hasKey (m : FieldMap) (k : PyStr) : Bool := m.any (fun p => p.1 == k)

/-- `AdvancedCrawler._extract_element_value` (lines 193-204): dispatch on
`extraction_type`, falling back to text content, requiring a truthy
`attribute_name` for the `attribute` kind. -/
def extractElementValue (e : Elem) (sel : ElementSelection) : Exc (Option PyStr) :=
  if sel.extraction_type == pys "text" then e.textContent
  else if sel.extraction_type == pys "href" then e.getAttr (pys "href")
  else if sel.extraction_type == pys "src" then e.getAttr (pys "src")
  else if sel.extraction_type == pys "attribute" && pyTruthy sel.attribute_name then
    e.getAttr (sel.attribute_name.getD [])
  else e.textContent

/-- The body of `_extract_item_data`'s loop over selections (lines
164-189): skip non-`data_field` selections and out-of-scope fields
without an entry; otherwise sub-query the item and store the value, with
an absent sub-element or a raised error stored as `None`. -/
def itemFieldStep (item : Elem) (currentUrl : PyStr) (acc : FieldMap)
    (sel : ElementSelection) : FieldMap :=
  if sel.element_type != pys "data_field" then acc
  else if pyTruthy sel.page_url &&
      !isFieldForCurrentPage (sel.page_url.getD []) currentUrl then acc
  else
    match item.subQuery sel.selector with
    | .error _ => dictInsert acc sel.name none
    | .ok none => dictInsert acc sel.name none
    | .ok (some e) =>
      match extractElementValue e sel with
      | .error _ => dictInsert acc sel.name none
      | .ok v => dictInsert acc sel.name v

/-- `AdvancedCrawler._extract_item_data` (lines 159-191): run the
per-selection step over every configured selection in order. -/
def extractItemData (item : Elem) (cfg : CrawlerConfiguration) (currentUrl : PyStr) : FieldMap :=
  cfg.selections.foldl (itemFieldStep item currentUrl) []

/-- Whether a `data_field` selection contributes an entry in
`_extract_item_data` on page `currentUrl` (it is attempted unless its
`page_url` is truthy and out of scope). -/
def baseFieldAttempted (cfg : CrawlerConfiguration) (currentUrl name : PyStr) : Bool :=
  cfg.selections.any (fun sel =>
    sel.name == name && (sel.element_type == pys "data_field" &&
      (!pyTruthy sel.page_url || isFieldForCurrentPage (sel.page_url.getD []) currentUrl)))

/-- The per-field extraction loop shared verbatim by the click handler
(lines 308-327), the extract handler (lines 360-375) and the new-tab
handlers (lines 423-436), parameterized by where each field's selector is
queried: a field whose name matches no selection is silently skipped (no
entry); otherwise a missing element or a raised error stores `None`. -/
def extractFieldStep (q : ElementSelection → Exc (Option Elem))
    (cfg : CrawlerConfiguration) (acc : FieldMap) (fieldName : PyStr) : FieldMap :=
  match findSelectionByName cfg fieldName with
  | some sel =>
    match q sel with
    | .error _ => dictInsert acc fieldName none
    | .ok none => dictInsert acc fieldName none
    | .ok (some el) =>
      match extractElementValue el sel with
      | .error _ => dictInsert acc fieldName none
      | .ok v => dictInsert acc fieldName v
  | none => acc

/-- The requested-fields loop itself: fold the per-field step over the
step's `extract_fields` in order. -/
def extractFieldsWith (q : ElementSelection → Exc (Option Elem))
    (cfg : CrawlerConfiguration) (fields : List PyStr) : FieldMap :=
  fields.foldl (extractFieldStep q cfg) []

/-- Decimal digits of a natural number, for building `:nth-of-type(i+1)`
selector strings. -/
def natDigits (n : Nat) : PyStr := (Nat.repr n).toList

/-- The `f"({items_selector.selector}):nth-of-type({item_index + 1})"`
selector of the by-index handlers (lines 275, 357, 387). -/
def nthTypeSelector (itemsSel : PyStr) (itemIndex : Nat) : PyStr :=
  pys "(" ++ itemsSel ++ pys "):nth-of-type(" ++ natDigits (itemIndex + 1) ++ pys ")"

/-- The `f"{a} {b}"` descendant-selector composition. -/
def descendantSelector (a b : PyStr) : PyStr := a ++ pys " " ++ b

/-- Driver operations recorded while a workflow step runs, so theorems
can speak about which navigations were attempted. -/
inductive DriverOp : Type where
  | query (selector : PyStr)
  | clickOn (selector : PyStr)
  | waitStep
  | goto (url : PyStr)
  | waitLoad
deriving DecidableEq, Repr

/-- The environment one workflow step runs in: the outcome of every
driver call the step can make. `gotoBackFirst`/`gotoBackSecond` are the
two `goto(original_url)` call sites of the click handler (line 330 on the
success path, line 339 inside the `except` handler), which may fail
independently. -/
structure StepWorld where
  findTarget : Exc (Option Elem)
  currentUrl : PyStr
  waitResult : Exc Unit
  queryMain : PyStr → Exc (Option Elem)
  gotoBackFirst : Exc Unit
  waitBackFirst : Exc Unit
  gotoBackSecond : Exc Unit
  waitBackSecond : Exc Unit
  newPageOpen : Exc Unit
  newPageGoto : PyStr → Exc Unit
  newPageWaitLoad : Exc Unit
  queryNewPage : PyStr → Exc (Option Elem)
  newPageClose : Exc Unit

/-- The nested `try: goto(original_url); wait ... except: log` of the
click handler's failure path (lines 338-342): the return navigation is
attempted and a failure of the attempt is swallowed; only the trace is
observable. -/
def clickNavBackRecovery (w : StepWorld) (originalUrl : PyStr) : List DriverOp :=
  match w.gotoBackSecond with
  | .error _ => [DriverOp.goto originalUrl]
  | .ok _ => [DriverOp.goto originalUrl, DriverOp.waitLoad]

/-- The click-and-extract sub-protocol shared by both click handlers
(lines 290-343 and 468-520): capture the current URL, click, await the
wait condition, extract the requested fields fresh on the main page, and
navigate back; any raise after the click enters the `except` path that
re-attempts the return navigation (swallowing its failure) and yields
`None`. `label` is the selector recorded for the click in the trace. -/
def clickWorkflowTail (w : StepWorld) (cfg : CrawlerConfiguration) (wf : WorkflowStep)
    (label : PyStr) (clickable : Elem) : List DriverOp × Option FieldMap :=
  let originalUrl := w.currentUrl
  let pre := [DriverOp.clickOn label]
  match clickable.clickElem with
  | .error _ => (pre ++ clickNavBackRecovery w originalUrl, none)
  | .ok _ =>
    match w.waitResult with
    | .error _ => (pre ++ [DriverOp.waitStep] ++ clickNavBackRecovery w originalUrl, none)
    | .ok _ =>
      let extracted :=
        extractFieldsWith (fun sel => w.queryMain sel.selector) cfg wf.extract_fields
      match w.gotoBackFirst with
      | .error _ =>
        (pre ++ [DriverOp.waitStep, DriverOp.goto originalUrl] ++
          clickNavBackRecovery w originalUrl, none)
      | .ok _ =>
        match w.waitBackFirst with
        | .error _ =>
          (pre ++ [DriverOp.waitStep, DriverOp.goto originalUrl, DriverOp.waitLoad] ++
            clickNavBackRecovery w originalUrl, none)
        | .ok _ =>
          (pre ++ [DriverOp.waitStep, DriverOp.goto originalUrl, DriverOp.waitLoad],
            some extracted)

/-- Embedding of `AdvancedCrawler._handle_click_workflow_by_index`
(lines 266-347): locate the target under the index-scoped selector, veto
through the clickability check, then run the click-and-extract
sub-protocol. The result is the recorded driver trace and the returned
optional field dict; every raise is caught inside, so the function is
total. -/
def handleClickWorkflowByIndex (w : StepWorld) (cfg : CrawlerConfiguration)
    (itemIndex : Nat) (wf : WorkflowStep) : List DriverOp × Option FieldMap :=
  match getItemsSelector cfg with
  | none => ([], none)
  | some itemsSel =>
    let fullSelector :=
      descendantSelector (nthTypeSelector itemsSel.selector itemIndex) wf.target_selector
    match w.findTarget with
    | .error _ => ([DriverOp.query fullSelector], none)
    | .ok none => ([DriverOp.query fullSelector], none)
    | .ok (some clickable) =>
      if !isElementClickable clickable then ([DriverOp.query fullSelector], none)
      else
        let t := clickWorkflowTail w cfg wf fullSelector clickable
        (DriverOp.query fullSelector :: t.1, t.2)

/-- Embedding of `AdvancedCrawler._handle_click_workflow` (lines
450-520), the element-handle variant: the target is located under the
retained item element instead of an index-scoped selector; the
click-and-extract sub-protocol is the same. -/
def handleClickWorkflow (w : StepWorld) (cfg : CrawlerConfiguration)
    (item : Elem) (wf : WorkflowStep) : List DriverOp × Option FieldMap :=
  match item.subQuery wf.target_selector with
  | .error _ => ([DriverOp.query wf.target_selector], none)
  | .ok none => ([DriverOp.query wf.target_selector], none)
  | .ok (some clickable) =>
    if !isElementClickable clickable then ([DriverOp.query wf.target_selector], none)
    else
      let t := clickWorkflowTail w cfg wf wf.target_selector clickable
      (DriverOp.query wf.target_selector :: t.1, t.2)

/-- Embedding of `AdvancedCrawler._handle_extract_workflow_by_index`
(lines 349-377): no click and no navigation; each requested field is
queried on the main page under the index-scoped selector. -/
def handleExtractWorkflowByIndex (w : StepWorld) (cfg : CrawlerConfiguration)
    (itemIndex : Nat) (wf : WorkflowStep) : Option FieldMap :=
  match getItemsSelector cfg with
  | none => none
  | some itemsSel =>
    let nthSel := nthTypeSelector itemsSel.selector itemIndex
    some (extractFieldsWith
      (fun sel => w.queryMain (descendantSelector nthSel sel.selector)) cfg wf.extract_fields)

/-- Embedding of `AdvancedCrawler._handle_new_tab_workflow_by_index`
(lines 379-448): locate the index-scoped link, read its href, resolve a
root-relative href against the current page URL, open a second page,
navigate it, extract the requested fields there, and close the page in a
`finally`; every raise is caught and yields `None`. -/
def handleNewTabWorkflowByIndex (w : StepWorld) (cfg : CrawlerConfiguration)
    (itemIndex : Nat) (wf : WorkflowStep) : Option FieldMap :=
  match getItemsSelector cfg with
  | none => none
  | some itemsSel =>
    let fullLinkSelector :=
      descendantSelector (nthTypeSelector itemsSel.selector itemIndex) wf.target_selector
    match w.findTarget with
    | .error _ => none
    | .ok none =>
      -- the composed selector is built but the link is absent
      let _ := fullLinkSelector
      none
    | .ok (some link) =>
      match link.getAttr (pys "href") with
      | .error _ => none
      | .ok none => none
      | .ok (some href0) =>
        if href0.isEmpty then none
        else
          let href := resolveHref w.currentUrl href0
          match w.newPageOpen with
          | .error _ => none
          | .ok _ =>
            match w.newPageGoto href with
            | .error _ => none
            | .ok _ =>
              match w.newPageWaitLoad with
              | .error _ => none
              | .ok _ =>
                let extracted :=
                  extractFieldsWith (fun sel => w.queryNewPage sel.selector) cfg wf.extract_fields
                match w.newPageClose with
                | .error _ => none
                | .ok _ => some extracted

/-- `AdvancedCrawler._execute_workflow_step_by_index` (lines 240-251):
string dispatch on the action; an unknown action logs a warning and
yields `None`. -/
def executeWorkflowStepByIndex (w : StepWorld) (cfg : CrawlerConfiguration)
    (itemIndex : Nat) (wf : WorkflowStep) : Option FieldMap :=
  if wf.action == pys "click" then (handleClickWorkflowByIndex w cfg itemIndex wf).2
  else if wf.action == pys "extract" then handleExtractWorkflowByIndex w cfg itemIndex wf
  else if wf.action == pys "open_new_tab" then handleNewTabWorkflowByIndex w cfg itemIndex wf
  else none

/-- `AdvancedCrawler._execute_workflows_by_index` (lines 220-238): run
every configured step in order, each in its own world, merging each
truthy (non-`None`, non-empty) result into the accumulated dict; a step's
failure never aborts the remaining steps. -/
def executeWorkflowsByIndex (worlds : Nat → StepWorld) (cfg : CrawlerConfiguration)
    (itemIndex : Nat) : FieldMap :=
  match getItemsSelector cfg with
  | none => []
  | some _ =>
    cfg.workflows.enum.foldl (fun acc kwf =>
      match executeWorkflowStepByIndex (worlds kwf.1) cfg itemIndex kwf.2 with
      | some m => if m.isEmpty then acc else dictUpdate acc m
      | none => acc) []

/-- The environment of one pagination attempt: the outcome of the
`query_selector_all` on the pagination selector and of the
`wait_for_load_state` after a click. -/
structure NavWorld where
  queryAllResult : Exc (List Elem)
  waitLoadResult : Exc Unit

/-- What a pagination attempt did: whether it reported another page, and
whether it clicked anything. -/
structure NavResult where
  advanced : Bool
  clicked : Bool
deriving DecidableEq, Repr

/-- The fuzzy content match of the pagination scan (lines 705-706):
`original_content in element_text or element_text in original_content or
element_text == original_content`, on strings already trimmed and
lowercased. -/
def contentMatches (originalContent elementText : PyStr) : Bool :=
  isSubstrOf originalContent elementText || isSubstrOf elementText originalContent ||
    elementText == originalContent

/-- The candidate scan of both pagination controllers (lines 698-709 of
the advanced module, 166-181 of the core module): walk the candidates in
document order, skip those whose text is `None` or empty, pick the first
whose trimmed lowercased text fuzzily matches; a raised `text_content`
aborts the whole attempt (propagating to the outer handler). -/
def findMatchingElem (originalContent : PyStr) : List Elem → Exc (Option Elem)
  | [] => .ok none
  | e :: rest =>
    match e.textContent with
    | .error u => .error u
    | .ok t =>
      let tt := t.getD []
      if tt.isEmpty then findMatchingElem originalContent rest
      else if contentMatches originalContent (pyLower (pyStrip tt)) then .ok (some e)
      else findMatchingElem originalContent rest

/-- Whether one candidate would satisfy the pagination scan (text present,
truthy, and fuzzily matching), used to state "no candidate matches". -/
def elemMatchesContent (originalContent : PyStr) (e : Elem) : Bool :=
  match e.textContent with
  | .error _ => false
  | .ok none => false
  | .ok (some t) => !t.isEmpty && contentMatches originalContent (pyLower (pyStrip t))

/-- Embedding of `AdvancedCrawler._navigate_to_next_page` (lines
676-739): no candidates is terminal; with a truthy `original_content`, a
scan with no match is terminal (no fallback); the chosen candidate is
vetoed by the clickability check; the pre-click log line calls
`.strip()` on the chosen candidate's text, so a `None` text raises and
aborts (caught, no click); then click, await load, sleep. -/
def navigateToNextPageAdv (w : NavWorld) (paginationConfig : Option ElementSelection) :
    NavResult :=
  match paginationConfig with
  | none => ⟨false, false⟩
  | some pc =>
    match w.queryAllResult with
    | .error _ => ⟨false, false⟩
    | .ok elems =>
      if elems.isEmpty then ⟨false, false⟩
      else
        let selected : Exc (Option Elem) :=
          if pyTruthy pc.original_content then
            findMatchingElem (pyLower (pyStrip (pc.original_content.getD []))) elems
          else .ok elems.head?
        match selected with
        | .error _ => ⟨false, false⟩
        | .ok none => ⟨false, false⟩
        | .ok (some el) =>
          if !isElementClickable el then ⟨false, false⟩
          else
            match el.textContent with
            | .error _ => ⟨false, false⟩
            | .ok none => ⟨false, false⟩
            | .ok (some _) =>
              match el.clickElem with
              | .error _ => ⟨false, true⟩
              | .ok _ =>
                match w.waitLoadResult with
                | .error _ => ⟨false, true⟩
                | .ok _ => ⟨true, true⟩

/-- Embedding of `PaginatedCrawler.navigate_to_next_page`
(src/app/core/crawler.py lines 140-213). It differs from the advanced
module in two observable places: a scan with no content match falls back
to the first candidate instead of stopping, and the pre-click log guards
`element_text.strip()` behind a truthiness test so a `None` text does not
abort. `originalContent` models the dynamically-set
`pagination_original_content` attribute (absent on the dataclass, so
`hasattr` is false unless a caller sets it). -/
def navigateToNextPageCore (w : NavWorld) (paginationSelector : Option PyStr)
    (originalContent : Option PyStr) : NavResult :=
  match paginationSelector with
  | none => ⟨false, false⟩
  | some ps =>
    if ps.isEmpty then ⟨false, false⟩
    else
      match w.queryAllResult with
      | .error _ => ⟨false, false⟩
      | .ok elems =>
        if elems.isEmpty then ⟨false, false⟩
        else
          let selected : Exc (Option Elem) :=
            if pyTruthy originalContent then
              match findMatchingElem (pyLower (pyStrip (originalContent.getD []))) elems with
              | .error u => .error u
              | .ok none => .ok elems.head?
              | .ok (some e) => .ok (some e)
            else .ok elems.head?
          match selected with
          | .error _ => ⟨false, false⟩
          | .ok none => ⟨false, false⟩
          | .ok (some el) =>
            if !isElementClickable el then ⟨false, false⟩
            else
              match el.textContent with
              | .error _ => ⟨false, false⟩
              | .ok _ =>
                match el.clickElem with
                | .error _ => ⟨false, true⟩
                | .ok _ =>
                  match w.waitLoadResult with
                  | .error _ => ⟨false, true⟩
                  | .ok _ => ⟨true, true⟩

/-- `ExtractionResult` (src/app/advanced_crawler.py lines 17-22). -/
structure ExtractionResult where
  data : FieldMap
  source_url : PyStr
  extraction_time : PyStr
  workflow_path : List PyStr
deriving DecidableEq, Repr

/-- The environment of one page visit: the initially queried item list,
the fresh item list re-queried before each index (the page may have
changed under the crawler), the step worlds per item and per step, and
the page's URL and timestamp. -/
structure PageWorld where
  initialItems : List Elem
  liveItems : Nat → List Elem
  itemWorlds : Nat → Nat → StepWorld
  pageUrl : PyStr
  timeStamp : PyStr

/-- The per-item body of `_extract_page_data` (lines 139-155): base
extraction, then workflow execution when workflows are configured, the
truthy workflow dict merged over the base dict, wrapped into an
`ExtractionResult` whose `workflow_path` is the literal empty list the
source constructs (line 152). -/
def processItem (pw : PageWorld) (cfg : CrawlerConfiguration) (i : Nat) (item : Elem) :
    ExtractionResult :=
  let base := extractItemData item cfg pw.pageUrl
  let itemData :=
    if cfg.workflows.isEmpty then base
    else
      let wfData := executeWorkflowsByIndex (pw.itemWorlds i) cfg i
      if wfData.isEmpty then base else dictUpdate base wfData
  { data := itemData, source_url := pw.pageUrl, extraction_time := pw.timeStamp,
    workflow_path := [] }

/-- The `for i in range(total_items)` loop of `_extract_page_data`
(lines 126-156): before each index the item list is re-queried; the
`i`-th element is taken only under the proof that `i` is in bounds of the
live list, and a live list that no longer reaches index `i` stops the
page's item processing. `remaining` counts the loop indices left. -/
def extractItemsLoop (pw : PageWorld) (cfg : CrawlerConfiguration) :
    Nat → Nat → List ExtractionResult
  | _, 0 => []
  | i, remaining + 1 =>
    let cur := pw.liveItems i
    if h : i < cur.length then
      processItem pw cfg i (cur.get ⟨i, h⟩) :: extractItemsLoop pw cfg (i + 1) remaining
    else []

/-- `AdvancedCrawler._extract_page_data` (lines 110-157): a configuration
without an items container logs a warning and yields an empty page
(the run continues); otherwise the guarded index loop over the initially
counted items. -/
def extractPageData (pw : PageWorld) (cfg : CrawlerConfiguration) : List ExtractionResult :=
  match getItemsSelector cfg with
  | none => []
  | some _ => extractItemsLoop pw cfg 0 pw.initialItems.length

/-- The guard `if self.config.max_pages and page_number >= self.config.max_pages`
(line 97): Python truthiness makes both `None` and `0` skip the bound. -/
def maxPagesReached (maxPages : Option Nat) (page : Nat) : Bool :=
  match maxPages with
  | none => false
  | some m => m != 0 && m ≤ page

/-- The environment of a whole crawl: a page world per page number and a
pagination world per advance attempt. -/
structure CrawlWorld where
  pageWorlds : Nat → PageWorld
  navWorlds : Nat → NavWorld

/-- The `while True` loop of `AdvancedCrawler.crawl_with_workflows`
(lines 76-108): extract the current page, stop if the max-pages guard
fires, else attempt pagination and stop when it reports no further page.
Yields the collected results in page-then-item order together with the
number of pages processed (the length of `navigation_history`), or `none`
when the loop would still be running after `fuel` iterations (the source
loop has no other bound). -/
def crawlLoop (w : CrawlWorld) (cfg : CrawlerConfiguration) :
    Nat → Nat → Option (List ExtractionResult × Nat)
  | 0, _ => none
  | fuel + 1, page =>
    let results := extractPageData (w.pageWorlds page) cfg
    if maxPagesReached cfg.max_pages page then some (results, 1)
    else if (navigateToNextPageAdv (w.navWorlds page) cfg.pagination_config).advanced then
      match crawlLoop w cfg fuel (page + 1) with
      | none => none
      | some (rest, n) => some (results ++ rest, n + 1)
    else some (results, 1)

/-- `crawl_with_workflows` enters the loop at page 1. -/
def crawlWithWorkflows (w : CrawlWorld) (cfg : CrawlerConfiguration) (fuel : Nat) :
    Option (List ExtractionResult × Nat) :=
  crawlLoop w cfg fuel 1

/-- The summary dict of `AdvancedCrawler.get_extraction_summary`
(lines 815-822). -/
structure ExtractionSummary where
  total_items : Nat
  unique_sources : Nat
  workflow_usage : Nat
  pages_visited : Nat
deriving DecidableEq, Repr

/-- `get_extraction_summary`: item count, distinct source URLs,
results with a truthy (non-empty) `workflow_path`, and pages visited. -/
def getExtractionSummary (results : List ExtractionResult) (pagesVisited : Nat) :
    ExtractionSummary :=
  { total_items := results.length
    unique_sources := (results.map (fun r => r.source_url)).dedup.length
    workflow_usage := (results.filter (fun r => !r.workflow_path.isEmpty)).length
    pages_visited := pagesVisited }

/-! ### Concrete fixtures for witnesses and counterexamples -/

/-- A default element (used only as the unreachable default of `getD`). -/
def elemDefault : Elem := plainElem (fun _ => none) none false (pys "auto") (pys "1")

/-- A fully clickable element: no disabling attribute or class, visible,
pointer events `auto`, opacity `1`. -/
def elemFullyClickable : Elem :=
  plainElem (fun _ => none) (some (pys "Next")) true (pys "auto") (pys "1")

/-- An element with class `btn btn-disabled`. -/
def elemBtnDisabled : Elem :=
  plainElem (classOnlyAttrs (pys "btn btn-disabled")) (some (pys "Next")) true
    (pys "auto") (pys "1")

/-- A visible element with opacity `0.05`. -/
def elemLowOpacity : Elem :=
  plainElem (fun _ => none) (some (pys "Next")) true (pys "auto") (pys "0.05")

/-- A clickable pagination candidate reading `Prev` (matches nothing that
says `Next`). -/
def elemPrev : Elem :=
  plainElem (fun _ => none) (some (pys "Prev")) true (pys "auto") (pys "1")

/-- A pagination world whose only candidate is the `Prev` element. -/
def navWorldPrev : NavWorld := ⟨.ok [elemPrev], .ok ()⟩

/-- A pagination world with one clickable `Next` candidate. -/
def navWorldAdvance : NavWorld := ⟨.ok [elemFullyClickable], .ok ()⟩

/-- A pagination world with no candidates. -/
def navWorldEmpty : NavWorld := ⟨.ok [], .ok ()⟩

/-- A pagination selection whose authored content was `Next`. -/
def pcNext : ElementSelection :=
  { name := pys "next_page", selector := pys ".next", element_type := pys "pagination",
    original_content := some (pys "Next") }

/-- A pagination selection without recorded content (first-candidate mode). -/
def pcPlain : ElementSelection :=
  { name := pys "next_page", selector := pys ".next", element_type := pys "pagination" }

/-- A step world where everything succeeds but no queried element exists. -/
def stepWorldPlain : StepWorld :=
  { findTarget := .ok none
    currentUrl := pys "https://x.com/list"
    waitResult := .ok ()
    queryMain := fun _ => .ok none
    gotoBackFirst := .ok ()
    waitBackFirst := .ok ()
    gotoBackSecond := .ok ()
    waitBackSecond := .ok ()
    newPageOpen := .ok ()
    newPageGoto := fun _ => .ok ()
    newPageWaitLoad := .ok ()
    queryNewPage := fun _ => .ok none
    newPageClose := .ok () }

/-- A step world whose click target is found and clickable. -/
def stepWorldClick : StepWorld :=
  { stepWorldPlain with findTarget := .ok (some elemFullyClickable) }

/-- An items-container selection. -/
def selItems : ElementSelection :=
  { name := pys "items", selector := pys ".row", element_type := pys "items_container" }

/-- A `title` data field. -/
def selTitle : ElementSelection :=
  { name := pys "title", selector := pys ".t", element_type := pys "data_field" }

/-- A click workflow step requesting the `title` field. -/
def wfClick : WorkflowStep :=
  { step_id := pys "s1", action := pys "click", target_selector := pys "a.detail",
    extract_fields := [pys "title"] }

/-- An extract workflow step whose field list names a selection that does
not exist in the configuration. -/
def wfGhost : WorkflowStep :=
  { step_id := pys "s1", action := pys "extract", target_selector := pys ".x",
    extract_fields := [pys "ghost"] }

/-- A configuration with an items container, a `title` field and one
workflow step referencing the non-existent field `ghost`. -/
def cfgGhost : CrawlerConfiguration :=
  { name := pys "ghost", base_url := pys "https://x.com/list",
    selections := [selItems, selTitle], workflows := [wfGhost] }

/-- A configuration for the click-workflow witness. -/
def cfgClick : CrawlerConfiguration :=
  { name := pys "click", base_url := pys "https://x.com/list",
    selections := [selItems, selTitle], workflows := [wfClick] }

/-- An item element with no extractable sub-elements. -/
def itemPlain : Elem := plainElem (fun _ => none) (some (pys "row")) true (pys "auto") (pys "1")

/-- A one-item page world whose step worlds all succeed without finding
anything. -/
def pwGhost : PageWorld :=
  { initialItems := [itemPlain]
    liveItems := fun _ => [itemPlain]
    itemWorlds := fun _ _ => stepWorldPlain
    pageUrl := pys "https://x.com/list"
    timeStamp := pys "t0" }

/-- A page world with no items at all. -/
def pwTrivial : PageWorld :=
  { initialItems := []
    liveItems := fun _ => []
    itemWorlds := fun _ _ => stepWorldPlain
    pageUrl := pys "https://x.com/list"
    timeStamp := pys "t0" }

/-- A crawl world whose pagination advances from pages 1 and 2 and finds
no candidates from page 3 on, over pages that contain no items. -/
def crawlWorld3 : CrawlWorld :=
  { pageWorlds := fun _ => pwTrivial
    navWorlds := fun p => if p < 3 then navWorldAdvance else navWorldEmpty }

/-- A crawl world like `crawlWorld3` but whose pages hold one item. -/
def crawlWorld3Items : CrawlWorld :=
  { pageWorlds := fun _ => pwGhost
    navWorlds := fun p => if p < 3 then navWorldAdvance else navWorldEmpty }

/-- `max_pages = 0`: set, but falsy in the guard that consults it. -/
def cfgZero : CrawlerConfiguration :=
  { name := pys "zero", base_url := pys "https://x.com/list", selections := [],
    workflows := [], pagination_config := some pcPlain, max_pages := some 0 }

/-- A configuration with pagination but no items container. -/
def cfgNoContainer : CrawlerConfiguration :=
  { name := pys "noc", base_url := pys "https://x.com/list", selections := [selTitle],
    workflows := [], pagination_config := some pcPlain }

/-- A configuration with `max_pages = 2` on a paginating site. -/
def cfgTwo : CrawlerConfiguration :=
  { name := pys "two", base_url := pys "https://x.com/list", selections := [],
    workflows := [], pagination_config := some pcPlain, max_pages := some 2 }

/-- A configuration with a container and a title field, for the
page-count-independence witness. -/
def cfgItems : CrawlerConfiguration :=
  { name := pys "items", base_url := pys "https://x.com/list",
    selections := [selItems, selTitle], workflows := [],
    pagination_config := some pcPlain }

/-- An item element whose sub-query finds the fully clickable element
(used as the retained item handle of the element-based click handler). -/
def itemWithLink : Elem :=
  .mk (fun _ => .ok none) (.ok (some (pys "row"))) (.ok true)
    (fun _ => .ok (pys "auto")) (fun _ => .ok (some elemFullyClickable)) (.ok ())

/-! ## Theorems -/

theorem clickable_eq (e : Elem) : isElementClickable e = clickableRule e := by
  unfold isElementClickable isElementClickableE clickableRule
  cases e.getAttr (pys "disabled") with
  | error u => rfl
  | ok d =>
    cases d with
    | some s => rfl
    | none =>
      cases e.getAttr (pys "aria-disabled") with
      | error u => rfl
      | ok a =>
        cases e.getAttr (pys "class") with
        | error u => dsimp only; split_ifs <;> rfl
        | ok c =>
          cases e.isVisible with
          | error u => dsimp only; split_ifs <;> rfl
          | ok v =>
            cases e.styleProp (pys "pointerEvents") with
            | error u => dsimp only; split_ifs <;> rfl
            | ok pe =>
              cases e.styleProp (pys "opacity") with
              | error u => dsimp only; split_ifs <;> rfl
              | ok op =>
                cases hpf : pyFloat op with
                | none => simp only [hpf]; split_ifs <;> rfl
                | some r => simp only [hpf]; split_ifs <;> simp_all

/-- C6: the field scope resolver parses both URLs and returns false when
the hosts differ, true when the slash-normalized paths are equal, false
when the field path has strictly more segments than the current path, and
otherwise exactly whether the current path starts with the field path;
the spec's three concrete examples and the different-host case behave as
stated. -/
theorem claim_C6_field_scope_resolver :
    (∀ f c, isFieldForCurrentPage f c = fieldScopeRule f c)
  ∧ isFieldForCurrentPage (pys "https://x.com/list") (pys "https://x.com/list") = true
  ∧ isFieldForCurrentPage (pys "https://x.com/list/detail/7") (pys "https://x.com/list") = false
  ∧ isFieldForCurrentPage (pys "https://x.com/list") (pys "https://x.com/list/detail") = true
  ∧ isFieldForCurrentPage (pys "https://x.com/a") (pys "https://y.com/a") = false :=
  ⟨fun _ _ => rfl, by decide, by decide, by decide, by decide⟩

/-- C7: the clickability evaluator implements the specification's six
ordered fail-closed checks (disabled attribute, aria-disabled, disabled
class substrings, visibility, pointer-events, opacity below 0.1, any
driver error giving false), and the three concrete examples behave as
stated: class `btn btn-disabled` is rejected, opacity `0.05` is rejected,
and a clean visible element is accepted. -/
theorem claim_C7_clickability :
    (∀ e : Elem, isElementClickable e = clickableRule e)
  ∧ isElementClickable elemBtnDisabled = false
  ∧ isElementClickable elemLowOpacity = false
  ∧ isElementClickable elemFullyClickable = true :=
  ⟨clickable_eq, by decide, by decide, by decide⟩

theorem floatLtTenth_iff (n : Int) (k : Nat) :
    floatLtTenth (n, k) = true ↔ (n : ℚ) / 10 ^ k < 1 / 10 := by
  unfold floatLtTenth
  rw [decide_eq_true_iff]
  rw [div_lt_div_iff₀ (by positivity) (by norm_num : (0 : ℚ) < 10)]
  rw [one_mul]
  constructor
  · intro h
    have : ((10 * n : Int) : ℚ) < (((10 : Int) ^ k : Int) : ℚ) := by exact_mod_cast h
    push_cast at this
    linarith
  · intro h
    have : ((10 * n : Int) : ℚ) < (((10 : Int) ^ k : Int) : ℚ) := by push_cast; linarith
    exact_mod_cast this

theorem dropWhileSlash_eq_self (l : PyStr) (h : l.head? ≠ some '/') :
    l.dropWhile (fun c => c = '/') = l := by
  cases l with
  | nil => rfl
  | cons c t =>
    rw [List.dropWhile_cons]
    simp only [List.head?_cons, ne_eq, Option.some.injEq] at h
    simp [h]

theorem dropLead_of_not_slash (r : PyStr) (h : ['/'].isPrefixOf r = false) :
    dropLeadSlashes r = r := by
  unfold dropLeadSlashes
  apply dropWhileSlash_eq_self
  cases r with
  | nil => simp
  | cons c t =>
    simp only [List.isPrefixOf, Bool.and_eq_false_imp] at h
    simp only [List.head?_cons, ne_eq, Option.some.injEq]
    intro hc
    subst hc
    simp [List.isPrefixOf] at h

theorem dropTrail_of_last_ne (b : PyStr) (h : b.getLast? ≠ some '/') :
    dropTrailSlashes b = b := by
  unfold dropTrailSlashes
  rw [dropWhileSlash_eq_self]
  · exact b.reverse_reverse
  · rw [List.head?_reverse]; exact h

/-- C8 counterexample: a protocol-relative href beginning with `//`
starts with `/`, so the code resolves it by plain concatenation, leaving
two slashes at the junction — not the single slash the claim states. -/
theorem claim_C8_counterexample :
    ['/'].isPrefixOf (pys "//cdn.example.com/a") = true ∧
    resolveHref (pys "https://x.com/list") (pys "//cdn.example.com/a") =
      pys "https://x.com/list//cdn.example.com/a" ∧
    resolveHref (pys "https://x.com/list") (pys "//cdn.example.com/a") ≠
      singleSlashJoin (pys "https://x.com/list") (pys "//cdn.example.com/a") := by
  refine ⟨by decide, by decide, by decide⟩

/-- C8 amended: a root-relative href with a single leading slash resolves
against a current URL with at most one trailing slash to their join with
exactly one slash at the junction (the leading slash of the href is
dropped exactly when the base ends with a slash); an href not starting
with `/` is used unchanged; an href starting with `//` keeps the extra
slash (see the counterexample). -/
theorem claim_C8_href_resolution_amended (base r href2 : PyStr)
    (hr : ['/'].isPrefixOf r = false)
    (hb : ¬(base.getLast? = some '/' ∧ base.dropLast.getLast? = some '/'))
    (h2 : ['/'].isPrefixOf href2 = false) :
    resolveHref base ('/' :: r) = singleSlashJoin base ('/' :: r) ∧
    resolveHref base href2 = href2 := by
  constructor
  · unfold resolveHref singleSlashJoin
    have hpre : ['/'].isPrefixOf ('/' :: r) = true := by simp [List.isPrefixOf]
    rw [hpre]
    simp only [if_true]
    have hlead : dropLeadSlashes ('/' :: r) = r := by
      unfold dropLeadSlashes
      rw [List.dropWhile_cons]
      simp only [decide_True, if_true]
      exact dropLead_of_not_slash r hr
    rw [hlead]
    by_cases hlast : base.getLast? = some '/'
    · rw [if_pos hlast]
      have hdl : base.dropLast.getLast? ≠ some '/' := fun hc => hb ⟨hlast, hc⟩
      have hbase : base.dropLast ++ ['/'] = base := List.dropLast_append_getLast? '/' hlast
      have htrail : dropTrailSlashes base = base.dropLast := by
        conv_lhs => rw [← hbase]
        unfold dropTrailSlashes
        rw [List.reverse_append]
        simp only [List.reverse_singleton, List.singleton_append, List.dropWhile_cons]
        simp only [decide_True, if_true]
        rw [dropWhileSlash_eq_self _ (by rw [List.head?_reverse]; exact hdl)]
        exact List.reverse_reverse _
      rw [htrail, List.drop_one, List.tail_cons]
      conv_lhs => rw [← hbase]
      rw [List.append_assoc]
      rfl
    · rw [if_neg hlast, dropTrail_of_last_ne base hlast]
  · unfold resolveHref
    rw [h2]
    simp

/-- C8 witness: the amended resolution at concrete inputs. -/
theorem claim_C8_witness :
    resolveHref (pys "https://x.com/list") ('/' :: pys "detail") =
      singleSlashJoin (pys "https://x.com/list") ('/' :: pys "detail") ∧
    resolveHref (pys "https://x.com/list") (pys "detail.html") = pys "detail.html" :=
  claim_C8_href_resolution_amended (pys "https://x.com/list") (pys "detail")
    (pys "detail.html") (by decide) (by decide) (by decide)

theorem goto_mem_clickWorkflowTail (w : StepWorld) (cfg : CrawlerConfiguration)
    (wf : WorkflowStep) (label : PyStr) (cl : Elem) :
    DriverOp.goto w.currentUrl ∈ (clickWorkflowTail w cfg wf label cl).1 := by
  unfold clickWorkflowTail clickNavBackRecovery
  cases cl.clickElem <;> cases w.waitResult <;> cases w.gotoBackFirst <;>
    cases w.waitBackFirst <;> cases w.gotoBackSecond <;> simp

/-- C1: in both click handlers, whenever the target element is found and
passes the clickability check, the executor attempts to navigate the main
page back to the URL captured before the click (a `goto` of that URL is
in the driver trace) — whatever the outcomes of the click, the wait, the
field extraction, and of the return navigation itself: both `goto` call
sites may fail, the failure is swallowed, and the handler still returns a
value instead of propagating. -/
theorem claim_C1_click_return_navigation (w : StepWorld) (cfg : CrawlerConfiguration)
    (itemIndex : Nat) (wf : WorkflowStep) (itemsSel : ElementSelection)
    (item elem : Elem)
    (hsel : getItemsSelector cfg = some itemsSel)
    (hfind : w.findTarget = .ok (some elem))
    (hclick : isElementClickable elem = true)
    (hsub : item.subQuery wf.target_selector = .ok (some elem)) :
    DriverOp.goto w.currentUrl ∈ (handleClickWorkflowByIndex w cfg itemIndex wf).1 ∧
    DriverOp.goto w.currentUrl ∈ (handleClickWorkflow w cfg item wf).1 := by
  constructor
  · unfold handleClickWorkflowByIndex
    rw [hsel, hfind]
    dsimp only
    rw [hclick]
    simp only [Bool.not_true, Bool.false_eq_true, if_false]
    exact List.mem_cons_of_mem _ (goto_mem_clickWorkflowTail w cfg wf _ elem)
  · unfold handleClickWorkflow
    rw [hsub]
    dsimp only
    rw [hclick]
    simp only [Bool.not_true, Bool.false_eq_true, if_false]
    exact List.mem_cons_of_mem _ (goto_mem_clickWorkflowTail w cfg wf _ elem)

/-- C1 witness: the return navigation is attempted at a concrete world
whose click target is found and clickable. -/
theorem claim_C1_witness :
    DriverOp.goto stepWorldClick.currentUrl ∈
      (handleClickWorkflowByIndex stepWorldClick cfgClick 0 wfClick).1 ∧
    DriverOp.goto stepWorldClick.currentUrl ∈
      (handleClickWorkflow stepWorldClick cfgClick itemWithLink wfClick).1 :=
  claim_C1_click_return_navigation stepWorldClick cfgClick 0 wfClick selItems
    itemWithLink elemFullyClickable rfl rfl (by decide) rfl

theorem findMatchingElem_no_match (oc : PyStr) (l : List Elem)
    (h : ∀ e ∈ l, elemMatchesContent oc e = false) :
    findMatchingElem oc l = .ok none ∨ findMatchingElem oc l = .error () := by
  induction l with
  | nil => left; rfl
  | cons e rest ih =>
    have he := h e (List.mem_cons_self e rest)
    have hrest : ∀ x ∈ rest, elemMatchesContent oc x = false :=
      fun x hx => h x (List.mem_cons_of_mem e hx)
    unfold findMatchingElem
    unfold elemMatchesContent at he
    cases htc : e.textContent with
    | error u => right; cases u; rfl
    | ok t =>
      rw [htc] at he
      cases t with
      | none =>
        simp only [Option.getD_none, List.isEmpty_nil, if_true]
        exact ih hrest
      | some s =>
        simp only [Option.getD_some]
        cases hs : s.isEmpty with
        | true => simp only [if_true]; exact ih hrest
        | false =>
          simp only [hs, Bool.not_false, Bool.true_and] at he
          simp only [Bool.false_eq_true, if_false, he]
          exact ih hrest

/-- C3 amended: with a truthy `original_content` and a non-empty
candidate list, the advanced pagination controller performs no click and
reports no further page when no candidate's trimmed lowercased text
equals, contains, or is contained by the stored content. The core-module
controller does NOT share this behavior: it falls back to the first
candidate (see the counterexample), so the property holds in the advanced
module only. -/
theorem claim_C3_pagination_no_match_amended (w : NavWorld) (pc : ElementSelection)
    (elems : List Elem)
    (hq : w.queryAllResult = .ok elems) (hne : elems ≠ [])
    (hoc : pyTruthy pc.original_content = true)
    (hnm : ∀ e ∈ elems,
      elemMatchesContent (pyLower (pyStrip (pc.original_content.getD []))) e = false) :
    navigateToNextPageAdv w (some pc) = ⟨false, false⟩ := by
  unfold navigateToNextPageAdv
  rw [hq]
  have hempty : elems.isEmpty = false := by
    cases elems with
    | nil => exact absurd rfl hne
    | cons a t => rfl
  dsimp only
  rw [hempty]
  simp only [Bool.false_eq_true, if_false, hoc, if_true]
  rcases findMatchingElem_no_match _ elems hnm with hfm | hfm <;> simp [hfm]

/-- C3 counterexample: at a world whose only pagination candidate reads
`Prev` (matching nothing about `Next`), the advanced module stops without
clicking, but the core module falls back to the first candidate, clicks
it and advances — the two implementations are not identical, refuting the
claim as stated. -/
theorem claim_C3_counterexample :
    elemMatchesContent (pyLower (pyStrip (pys "Next"))) elemPrev = false ∧
    navigateToNextPageAdv navWorldPrev (some pcNext) = ⟨false, false⟩ ∧
    navigateToNextPageCore navWorldPrev (some (pys ".next")) (some (pys "Next")) =
      ⟨true, true⟩ := by
  refine ⟨by decide, by decide, by decide⟩

/-- C3 witness: the amended no-match termination at a concrete world. -/
theorem claim_C3_witness :
    navigateToNextPageAdv navWorldPrev (some pcNext) = ⟨false, false⟩ := by
  apply claim_C3_pagination_no_match_amended navWorldPrev pcNext [elemPrev] rfl
    (List.cons_ne_nil _ _) (by decide)
  intro e he
  rw [List.mem_singleton] at he
  subst he
  decide

/-- C4 amended: a configuration without an `items_container` selection is
not rejected up front — every page's extraction logs a warning and yields
an empty page result, the loop continues through pagination, and whenever
the run terminates it returns normally with an empty result list; no
error is surfaced to the caller. -/
theorem claim_C4_missing_container_amended (cfg : CrawlerConfiguration)
    (h : getItemsSelector cfg = none) :
    (∀ pw, extractPageData pw cfg = [])
  ∧ (∀ w fuel page out, crawlLoop w cfg fuel page = some out → out.1 = []) := by
  have hpage : ∀ pw, extractPageData pw cfg = [] := by
    intro pw
    unfold extractPageData
    rw [h]
  refine ⟨hpage, ?_⟩
  intro w fuel
  induction fuel with
  | zero =>
    intro page out hout
    exact Option.noConfusion hout
  | succ k ih =>
    intro page out hout
    unfold crawlLoop at hout
    rw [hpage] at hout
    split at hout
    · injection hout with h2
      rw [← h2]
    · split at hout
      · rcases hrec : crawlLoop w cfg k (page + 1) with _ | ⟨rest, m⟩
        · rw [hrec] at hout
          exact Option.noConfusion hout
        · rw [hrec] at hout
          injection hout with h2
          have hrest : rest = [] := ih (page + 1) (rest, m) hrec
          rw [← h2]
          simp [hrest]
      · injection hout with h2
        rw [← h2]

/-- C4 counterexample: with no `items_container` configured, the run is
not terminated before the page loop and no error is surfaced — the loop
visits three pages through pagination and completes normally with an
empty result list. -/
theorem claim_C4_counterexample :
    getItemsSelector cfgNoContainer = none ∧
    crawlLoop crawlWorld3 cfgNoContainer 10 1 = some ([], 3) :=
  ⟨rfl, by decide⟩

/-- C4 witness: the amended behavior at a concrete configuration. -/
theorem claim_C4_witness : extractPageData pwTrivial cfgNoContainer = [] :=
  (claim_C4_missing_container_amended cfgNoContainer rfl).1 pwTrivial

theorem maxPagesReached_some_iff (N page : Nat) :
    maxPagesReached (some N) page = true ↔ (N ≠ 0 ∧ N ≤ page) := by
  unfold maxPagesReached
  simp

theorem crawlLoop_reaches_bound (w : CrawlWorld) (cfg : CrawlerConfiguration) (N : Nat)
    (hmax : cfg.max_pages = some N) (hN : 1 ≤ N) :
    ∀ fuel page, 1 ≤ page → page ≤ N → N - page < fuel →
      (∀ p, page ≤ p → p < N →
        (navigateToNextPageAdv (w.navWorlds p) cfg.pagination_config).advanced = true) →
      ∃ rs, crawlLoop w cfg fuel page = some (rs, N - page + 1) := by
  intro fuel
  induction fuel with
  | zero =>
    intro page _ _ h3 _
    omega
  | succ k ih =>
    intro page h1 h2 h3 hadv
    unfold crawlLoop
    rcases Nat.lt_or_ge page N with hlt | hge
    · have hnot : maxPagesReached cfg.max_pages page = false := by
        rw [hmax]
        unfold maxPagesReached
        simp only [Bool.and_eq_false_iff, decide_eq_false_iff_not]
        right
        omega
      rw [hnot]
      have hstep := hadv page (Nat.le_refl page) hlt
      simp only [Bool.false_eq_true, if_false, hstep, if_true]
      obtain ⟨rs, hrs⟩ := ih (page + 1) (by omega) (by omega) (by omega)
        (fun p hp hp2 => hadv p (by omega) hp2)
      refine ⟨extractPageData (w.pageWorlds page) cfg ++ rs, ?_⟩
      rw [hrs]
      dsimp only
      have harith : N - (page + 1) + 1 + 1 = N - page + 1 := by omega
      rw [harith]
    · have hpage : page = N := by omega
      subst hpage
      have hreach : maxPagesReached cfg.max_pages page = true := by
        rw [hmax]
        exact (maxPagesReached_some_iff page page).mpr ⟨by omega, by omega⟩
      rw [hreach]
      have harith : page - page + 1 = 1 := by omega
      rw [harith]
      exact ⟨extractPageData (w.pageWorlds page) cfg, rfl⟩

theorem crawlLoop_le_bound (w : CrawlWorld) (cfg : CrawlerConfiguration) (N : Nat)
    (hmax : cfg.max_pages = some N) (hN : 1 ≤ N) :
    ∀ fuel page rs n, 1 ≤ page → page ≤ N →
      crawlLoop w cfg fuel page = some (rs, n) → n + page ≤ N + 1 := by
  intro fuel
  induction fuel with
  | zero =>
    intro page rs n _ _ hout
    exact Option.noConfusion hout
  | succ k ih =>
    intro page rs n h1 h2 hout
    unfold crawlLoop at hout
    split at hout
    · injection hout with h3
      have hn : n = 1 := ((Prod.mk.injEq _ _ _ _).mp h3).2.symm
      omega
    · next hreach =>
      have hlt : page < N := by
        by_contra hcon
        apply hreach
        rw [hmax]
        exact (maxPagesReached_some_iff N page).mpr ⟨by omega, by omega⟩
      split at hout
      · rcases hrec : crawlLoop w cfg k (page + 1) with _ | ⟨rest, m⟩
        · rw [hrec] at hout
          exact Option.noConfusion hout
        · rw [hrec] at hout
          injection hout with h3
          have hn : n = m + 1 := ((Prod.mk.injEq _ _ _ _).mp h3).2.symm
          have hm := ih (page + 1) rest m (by omega) (by omega) hrec
          omega
      · injection hout with h3
        have hn : n = 1 := ((Prod.mk.injEq _ _ _ _).mp h3).2.symm
        omega

/-- C5 amended: with `max_pages = N` for `N ≥ 1` and enough fuel, a site
that still advances on every page below `N` yields exactly `N` processed
pages (the counter starts at 1 and the bound is checked after extracting
a page, before the next advance), and every terminating run processes at
most `N` pages. `max_pages = 0` is excluded: Python's truthiness makes
`0` falsy in the guard, so the bound is silently disabled (see the
counterexample). -/
theorem claim_C5_max_pages_amended (w : CrawlWorld) (cfg : CrawlerConfiguration)
    (N fuel : Nat) (hN : 1 ≤ N) (hmax : cfg.max_pages = some N) (hfuel : N ≤ fuel)
    (hadv : ∀ p, 1 ≤ p → p < N →
      (navigateToNextPageAdv (w.navWorlds p) cfg.pagination_config).advanced = true) :
    ((crawlLoop w cfg fuel 1).map (fun out => out.2) = some N)
  ∧ (∀ fuel2 rs n, crawlLoop w cfg fuel2 1 = some (rs, n) → n ≤ N) := by
  constructor
  · obtain ⟨rs, h⟩ := crawlLoop_reaches_bound w cfg N hmax hN fuel 1 (Nat.le_refl 1) hN
      (by omega) (fun p hp hp2 => hadv p hp hp2)
    rw [h]
    have harith : N - 1 + 1 = N := by omega
    simp [harith]
  · intro fuel2 rs n h
    have := crawlLoop_le_bound w cfg N hmax hN fuel2 1 rs n (Nat.le_refl 1) hN h
    omega

/-- C5 counterexample: `max_pages = 0` is a set bound under which the
claim demands at most zero pages, yet the run processes three — the
Python guard `if self.config.max_pages and ...` treats `0` as unset. -/
theorem claim_C5_counterexample :
    cfgZero.max_pages = some 0 ∧
    crawlLoop crawlWorld3 cfgZero 10 1 = some ([], 3) :=
  ⟨rfl, by decide⟩

/-- C5 witness: `max_pages = 2` on a site exposing three pages processes
exactly two pages. -/
theorem claim_C5_witness :
    (crawlLoop crawlWorld3 cfgTwo 5 1).map (fun out => out.2) = some 2 := by
  have h := claim_C5_max_pages_amended crawlWorld3 cfgTwo 2 5 (by omega) rfl (by omega)
    (fun p hp1 hp2 => by
      have hp : p = 1 := by omega
      subst hp
      decide)
  exact h.1

theorem workflow_path_nil_extractItemsLoop (pw : PageWorld) (cfg : CrawlerConfiguration) :
    ∀ remaining i r, r ∈ extractItemsLoop pw cfg i remaining → r.workflow_path = [] := by
  intro remaining
  induction remaining with
  | zero =>
    intro i r hr
    exact absurd hr (List.not_mem_nil r)
  | succ k ih =>
    intro i r hr
    unfold extractItemsLoop at hr
    dsimp only at hr
    split at hr
    · rcases List.mem_cons.mp hr with h | h
      · rw [h]; rfl
      · exact ih (i + 1) r h
    · exact absurd hr (List.not_mem_nil r)

theorem crawlLoop_results_mem (w : CrawlWorld) (cfg : CrawlerConfiguration) :
    ∀ fuel page out, crawlLoop w cfg fuel page = some out →
      ∀ r ∈ out.1, ∃ p, r ∈ extractPageData (w.pageWorlds p) cfg := by
  intro fuel
  induction fuel with
  | zero =>
    intro page out hout
    exact Option.noConfusion hout
  | succ k ih =>
    intro page out hout r hr
    unfold crawlLoop at hout
    split at hout
    · injection hout with h2
      rw [← h2] at hr
      exact ⟨page, hr⟩
    · split at hout
      · rcases hrec : crawlLoop w cfg k (page + 1) with _ | ⟨rest, m⟩
        · rw [hrec] at hout
          exact Option.noConfusion hout
        · rw [hrec] at hout
          injection hout with h2
          rw [← h2] at hr
          rcases List.mem_append.mp hr with h | h
          · exact ⟨page, h⟩
          · exact ih (page + 1) (rest, m) hrec r h
      · injection hout with h2
        rw [← h2] at hr
        exact ⟨page, hr⟩

/-- C10: every `ExtractionResult` the orchestrator produces carries the
literal empty `workflow_path` (even when workflow steps ran and merged
fields), so the summary's workflow-usage count — the number of results
with a non-empty `workflow_path` — is zero for every terminating run. -/
theorem claim_C10_workflow_path_empty :
    (∀ pw cfg r, r ∈ extractPageData pw cfg → r.workflow_path = [])
  ∧ (∀ w cfg fuel page out, crawlLoop w cfg fuel page = some out →
      (getExtractionSummary out.1 out.2).workflow_usage = 0) := by
  have hpage : ∀ pw cfg r, r ∈ extractPageData pw cfg → r.workflow_path = [] := by
    intro pw cfg r hr
    unfold extractPageData at hr
    split at hr
    · exact absurd hr (List.not_mem_nil r)
    · exact workflow_path_nil_extractItemsLoop pw cfg _ 0 r hr
  refine ⟨hpage, ?_⟩
  intro w cfg fuel page out hout
  unfold getExtractionSummary
  dsimp only
  rw [List.length_eq_zero]
  rw [List.filter_eq_nil_iff]
  intro r hr
  obtain ⟨p, hp⟩ := crawlLoop_results_mem w cfg fuel page out hout r hr
  have hnil := hpage (w.pageWorlds p) cfg r hp
  rw [hnil]
  simp

/-- C10 witness: the workflow-usage count of a concrete terminating run. -/
theorem claim_C10_witness :
    (getExtractionSummary ([] : List ExtractionResult) 3).workflow_usage = 0 :=
  claim_C10_workflow_path_empty.2 crawlWorld3 cfgNoContainer 10 1 ([], 3) (by decide)

theorem extractItemsLoop_char (pw : PageWorld) (cfg : CrawlerConfiguration) :
    ∀ remaining i, ∃ k, k ≤ remaining ∧
      (∀ j, j < k → i + j < (pw.liveItems (i + j)).length) ∧
      (k < remaining → (pw.liveItems (i + k)).length ≤ i + k) ∧
      extractItemsLoop pw cfg i remaining =
        (List.range' i k).map
          (fun idx => processItem pw cfg idx ((pw.liveItems idx).getD idx elemDefault)) := by
  intro remaining
  induction remaining with
  | zero =>
    intro i
    refine ⟨0, Nat.le_refl 0, ?_, ?_, rfl⟩
    · intro j hj
      omega
    · intro h
      omega
  | succ rem ih =>
    intro i
    unfold extractItemsLoop
    by_cases h : i < (pw.liveItems i).length
    · rw [dif_pos h]
      obtain ⟨k, hk1, hk2, hk3, hk4⟩ := ih (i + 1)
      refine ⟨k + 1, by omega, ?_, ?_, ?_⟩
      · intro j hj
        cases j with
        | zero => simpa using h
        | succ j' =>
          have harith : i + (j' + 1) = i + 1 + j' := by omega
          rw [harith]
          exact hk2 j' (by omega)
      · intro hlt
        have harith : i + (k + 1) = i + 1 + k := by omega
        rw [harith]
        exact hk3 (by omega)
      · rw [hk4, List.range'_succ, List.map_cons]
        congr 1
        have hg : (pw.liveItems i).getD i elemDefault = (pw.liveItems i).get ⟨i, h⟩ := by
          rw [List.getD_eq_getElem?_getD, List.getElem?_eq_getElem h]
          rfl
        rw [hg]
    · rw [dif_neg h]
      refine ⟨0, by omega, ?_, ?_, rfl⟩
      · intro j hj
        omega
      · intro _
        have harith : i + 0 = i := by omega
        rw [harith]
        omega

/-- C9: per-page item processing re-queries the item list before each
index and accesses the i-th element only under the proof that the live
list reaches it — the produced results are exactly the items of the
maximal prefix `[0, k)` on which the live count stayed above the index,
with processing stopping (no error) at the first shrink; and the page
progression of the crawl loop is entirely independent of what item
processing produced, so control always falls through to pagination. -/
theorem claim_C9_defensive_item_bound :
    (∀ pw cfg, ∃ k, k ≤ pw.initialItems.length ∧
       (∀ j, j < k → j < (pw.liveItems j).length) ∧
       (k < pw.initialItems.length → (pw.liveItems k).length ≤ k) ∧
       extractItemsLoop pw cfg 0 pw.initialItems.length =
         (List.range' 0 k).map
           (fun idx => processItem pw cfg idx ((pw.liveItems idx).getD idx elemDefault)))
  ∧ (∀ w1 w2 cfg fuel page, w1.navWorlds = w2.navWorlds →
      (crawlLoop w1 cfg fuel page).map (fun out => out.2) =
      (crawlLoop w2 cfg fuel page).map (fun out => out.2)) := by
  constructor
  · intro pw cfg
    obtain ⟨k, h1, h2, h3, h4⟩ := extractItemsLoop_char pw cfg pw.initialItems.length 0
    refine ⟨k, h1, ?_, ?_, h4⟩
    · intro j hj
      have := h2 j hj
      simpa using this
    · intro hlt
      have := h3 hlt
      simpa using this
  · intro w1 w2 cfg fuel
    induction fuel with
    | zero =>
      intro page _
      rfl
    | succ kf ih =>
      intro page hnav
      unfold crawlLoop
      rw [← hnav]
      by_cases hmax : maxPagesReached cfg.max_pages page = true
      · rw [hmax]
        simp
      · rw [Bool.not_eq_true] at hmax
        rw [hmax]
        simp only [Bool.false_eq_true, if_false]
        by_cases hadv :
            (navigateToNextPageAdv (w1.navWorlds page) cfg.pagination_config).advanced = true
        · simp only [hadv, if_true]
          have hrec := ih (page + 1) hnav
          rcases h1 : crawlLoop w1 cfg kf (page + 1) with _ | ⟨r1, n1⟩ <;>
            rcases h2 : crawlLoop w2 cfg kf (page + 1) with _ | ⟨r2, n2⟩ <;>
              rw [h1, h2] at hrec <;> simp_all
        · rw [Bool.not_eq_true] at hadv
          rw [hadv]
          simp

/-- C9 witness: page progression is unchanged between a crawl over empty
pages and a crawl over one-item pages with the same pagination worlds. -/
theorem claim_C9_witness :
    (crawlLoop crawlWorld3 cfgItems 4 1).map (fun out => out.2) =
    (crawlLoop crawlWorld3Items cfgItems 4 1).map (fun out => out.2) :=
  claim_C9_defensive_item_bound.2 crawlWorld3 crawlWorld3Items cfgItems 4 1 rfl

theorem hasKey_dictInsert (k k' : PyStr) (v : Option PyStr) :
    ∀ m : FieldMap, hasKey (dictInsert m k v) k' = ((k == k') || hasKey m k') := by
  intro m
  induction m with
  | nil => simp [dictInsert, hasKey]
  | cons p rest ih =>
    unfold dictInsert
    by_cases h : p.1 = k
    · rw [if_pos (by simp [h])]
      unfold hasKey
      simp only [List.any_cons, h]
      cases hkk : k == k' <;> simp [hkk]
    · rw [if_neg (by simp [h])]
      unfold hasKey
      simp only [List.any_cons]
      unfold hasKey at ih
      rw [ih]
      cases hkk : k == k' <;> cases hp : p.1 == k' <;> simp [hkk, hp]

theorem hasKey_extractFieldStep (q : ElementSelection → Exc (Option Elem))
    (cfg : CrawlerConfiguration) (acc : FieldMap) (f name : PyStr) :
    hasKey (extractFieldStep q cfg acc f) name =
      (hasKey acc name || (f == name && (findSelectionByName cfg f).isSome)) := by
  unfold extractFieldStep
  cases hsel : findSelectionByName cfg f with
  | none => simp
  | some sel =>
    dsimp only
    have hins : ∀ v, hasKey (dictInsert acc f v) name = ((f == name) || hasKey acc name) :=
      fun v => hasKey_dictInsert f name v acc
    cases hq : q sel with
    | error u => dsimp only; rw [hins]; cases hf : f == name <;> simp [hf]
    | ok o =>
      cases o with
      | none => dsimp only; rw [hins]; cases hf : f == name <;> simp [hf]
      | some el =>
        dsimp only
        cases hev : extractElementValue el sel with
        | error u => dsimp only; rw [hins]; cases hf : f == name <;> simp [hf]
        | ok v => dsimp only; rw [hins]; cases hf : f == name <;> simp [hf]

theorem hasKey_extractFields_fold (q : ElementSelection → Exc (Option Elem))
    (cfg : CrawlerConfiguration) (name : PyStr) :
    ∀ (fields : List PyStr) (acc : FieldMap),
      hasKey (fields.foldl (extractFieldStep q cfg) acc) name =
        (hasKey acc name ||
          (fields.contains name && (findSelectionByName cfg name).isSome)) := by
  intro fields
  induction fields with
  | nil =>
    intro acc
    simp
  | cons f rest ih =>
    intro acc
    rw [List.foldl_cons, ih, hasKey_extractFieldStep, List.contains_cons]
    by_cases hf : f = name
    · subst hf
      cases h1 : hasKey acc f <;>
        cases h2 : (findSelectionByName cfg f).isSome <;>
          cases h3 : rest.contains f <;> simp [h1, h2, h3]
    · have hb : (f == name) = false := by simp [hf]
      rw [hb]
      cases h1 : hasKey acc name <;>
        cases h3 : rest.contains name <;>
          cases h2 : (findSelectionByName cfg name).isSome <;>
            simp [h1, h2, h3, Ne.symm hf]

theorem hasKey_extractFieldsWith (q : ElementSelection → Exc (Option Elem))
    (cfg : CrawlerConfiguration) (fields : List PyStr) (name : PyStr) :
    hasKey (extractFieldsWith q cfg fields) name =
      (fields.contains name && (findSelectionByName cfg name).isSome) := by
  unfold extractFieldsWith
  rw [hasKey_extractFields_fold]
  simp [hasKey]

theorem hasKey_itemFieldStep (item : Elem) (url : PyStr) (acc : FieldMap)
    (sel : ElementSelection) (name : PyStr) :
    hasKey (itemFieldStep item url acc sel) name =
      (hasKey acc name || (sel.name == name && (sel.element_type == pys "data_field" &&
        (!pyTruthy sel.page_url ||
          isFieldForCurrentPage (sel.page_url.getD []) url)))) := by
  unfold itemFieldStep
  by_cases htype : sel.element_type = pys "data_field"
  · rw [if_neg (by simp [htype])]
    by_cases hscope : (pyTruthy sel.page_url &&
        !isFieldForCurrentPage (sel.page_url.getD []) url) = true
    · rw [if_pos hscope]
      rcases Bool.and_eq_true _ _ |>.mp hscope with ⟨hp, hf⟩
      rw [Bool.not_eq_true'] at hf
      simp [htype, hp, hf]
    · rw [if_neg hscope]
      have hins : ∀ v, hasKey (dictInsert acc sel.name v) name =
          ((sel.name == name) || hasKey acc name) :=
        fun v => hasKey_dictInsert sel.name name v acc
      have hok : (!pyTruthy sel.page_url ||
          isFieldForCurrentPage (sel.page_url.getD []) url) = true := by
        cases hp : pyTruthy sel.page_url <;>
          cases hf : isFieldForCurrentPage (sel.page_url.getD []) url <;>
            simp_all
      cases hq : item.subQuery sel.selector with
      | error u => dsimp only; rw [hins]; cases hn : sel.name == name <;> simp [hn, htype, hok]
      | ok o =>
        cases o with
        | none => dsimp only; rw [hins]; cases hn : sel.name == name <;> simp [hn, htype, hok]
        | some e =>
          dsimp only
          cases hev : extractElementValue e sel with
          | error u =>
            dsimp only; rw [hins]; cases hn : sel.name == name <;> simp [hn, htype, hok]
          | ok v =>
            dsimp only; rw [hins]; cases hn : sel.name == name <;> simp [hn, htype, hok]
  · rw [if_pos (by simp [htype])]
    simp [htype]

theorem hasKey_itemFields_fold (item : Elem) (url : PyStr) (name : PyStr) :
    ∀ (sels : List ElementSelection) (acc : FieldMap),
      hasKey (sels.foldl (itemFieldStep item url) acc) name =
        (hasKey acc name || sels.any (fun sel =>
          sel.name == name && (sel.element_type == pys "data_field" &&
            (!pyTruthy sel.page_url ||
              isFieldForCurrentPage (sel.page_url.getD []) url)))) := by
  intro sels
  induction sels with
  | nil =>
    intro acc
    simp
  | cons sel rest ih =>
    intro acc
    rw [List.foldl_cons, ih, hasKey_itemFieldStep, List.any_cons]
    cases h1 : hasKey acc name <;>
      cases h2 : sel.name == name && (sel.element_type == pys "data_field" &&
        (!pyTruthy sel.page_url ||
          isFieldForCurrentPage (sel.page_url.getD []) url)) <;>
        cases h3 : rest.any (fun sel => sel.name == name &&
          (sel.element_type == pys "data_field" &&
            (!pyTruthy sel.page_url ||
              isFieldForCurrentPage (sel.page_url.getD []) url))) <;>
          simp [h1, h2, h3]

theorem clickWorkflowTail_some (w : StepWorld) (cfg : CrawlerConfiguration)
    (wf : WorkflowStep) (label : PyStr) (cl : Elem) (m : FieldMap)
    (h : (clickWorkflowTail w cfg wf label cl).2 = some m) :
    m = extractFieldsWith (fun sel => w.queryMain sel.selector) cfg wf.extract_fields := by
  unfold clickWorkflowTail at h
  dsimp only at h
  cases hc : cl.clickElem with
  | error u => rw [hc] at h; exact Option.noConfusion h
  | ok u =>
    rw [hc] at h
    cases hw : w.waitResult with
    | error u2 => rw [hw] at h; exact Option.noConfusion h
    | ok u2 =>
      rw [hw] at h
      cases hg : w.gotoBackFirst with
      | error u3 => rw [hg] at h; exact Option.noConfusion h
      | ok u3 =>
        rw [hg] at h
        cases hb : w.waitBackFirst with
        | error u4 => rw [hb] at h; exact Option.noConfusion h
        | ok u4 =>
          rw [hb] at h
          exact (Option.some.inj h).symm

theorem handleClickByIndex_some (w : StepWorld) (cfg : CrawlerConfiguration)
    (i : Nat) (wf : WorkflowStep) (m : FieldMap)
    (h : (handleClickWorkflowByIndex w cfg i wf).2 = some m) :
    m = extractFieldsWith (fun sel => w.queryMain sel.selector) cfg wf.extract_fields := by
  unfold handleClickWorkflowByIndex at h
  rcases hg : getItemsSelector cfg with _ | itemsSel <;> rw [hg] at h
  · exact Option.noConfusion h
  · dsimp only at h
    rcases hf : w.findTarget with u | o <;> rw [hf] at h
    · exact Option.noConfusion h
    · rcases o with _ | clickable
      · exact Option.noConfusion h
      · dsimp only at h
        by_cases hcl : (!isElementClickable clickable) = true
        · rw [if_pos hcl] at h
          exact Option.noConfusion h
        · rw [if_neg hcl] at h
          exact clickWorkflowTail_some w cfg wf _ clickable m h

/-- C2 amended: the base extractor produces exactly one entry per
in-scope `data_field` selection; a completed per-field workflow loop
(and hence any click step that returned a dict, and the extract and
new-tab handlers, which all share it) contains an entry for a requested
field name exactly when that name resolves to a configured selection —
a name matching no `ElementSelection.name` yields NO entry at all (it is
silently skipped, not stored as null), and an aborted step yields no
entries for any of its fields. Every stored value is a string or null by
construction (`FieldMap` values are `Option PyStr`). -/
theorem claim_C2_data_entries_amended :
    (∀ item cfg url name,
       hasKey (extractItemData item cfg url) name = baseFieldAttempted cfg url name)
  ∧ (∀ q cfg fields name, hasKey (extractFieldsWith q cfg fields) name =
       (fields.contains name && (findSelectionByName cfg name).isSome))
  ∧ (∀ w cfg i wf m name, (handleClickWorkflowByIndex w cfg i wf).2 = some m →
       hasKey m name = (wf.extract_fields.contains name &&
         (findSelectionByName cfg name).isSome)) := by
  refine ⟨?_, ?_, ?_⟩
  · intro item cfg url name
    unfold extractItemData baseFieldAttempted
    rw [hasKey_itemFields_fold]
    simp [hasKey]
  · intro q cfg fields name
    exact hasKey_extractFieldsWith q cfg fields name
  · intro w cfg i wf m name h
    rw [handleClickByIndex_some w cfg i wf m h]
    exact hasKey_extractFieldsWith _ cfg wf.extract_fields name

/-- C2 counterexample: the configured workflow requests the field
`ghost`, which matches no selection; the produced item data has NO entry
under that key — not a null entry as the claim states. -/
theorem claim_C2_counterexample :
    (cfgGhost.workflows.map (fun wf => wf.extract_fields)).flatten.contains (pys "ghost") = true ∧
    (extractPageData pwGhost cfgGhost).map (fun r => hasKey r.data (pys "ghost")) = [false] := by
  refine ⟨by decide, by decide⟩

/-- C2 witness: a completed click step's dict has an entry for the
requested resolvable field `title`. -/
theorem claim_C2_witness :
    hasKey (extractFieldsWith (fun sel => stepWorldClick.queryMain sel.selector) cfgClick
        wfClick.extract_fields) (pys "title") =
      (wfClick.extract_fields.contains (pys "title") &&
        (findSelectionByName cfgClick (pys "title")).isSome) :=
  claim_C2_data_entries_amended.2.2 stepWorldClick cfgClick 0 wfClick
    (extractFieldsWith (fun sel => stepWorldClick.queryMain sel.selector) cfgClick
      wfClick.extract_fields) (pys "title") (by decide)

end Crawler
